import Mathlib

/-!
Verification of the renewal decision engine
(`backend/app/services/renewal_*.py`): scoring model, pricing simulator,
negotiation engine, offer dispatcher and scheduled workflow, shallowly
embedded over exact rational arithmetic.  Python floats are modelled as
rationals; `round(x, n)` is modelled as round-half-to-even at `n` decimal
digits; ISO timestamps are modelled as integers ordered chronologically.
-/

namespace Renewal

/-! ### Round-half-to-even, the model of Python `round` -/

/-- Round a rational to the nearest integer, ties to the even integer.
Stated with `Rat.floor` so that it evaluates by kernel reduction. -/
def rhe (q : ℚ) : ℤ :=
  let k := q.floor
  let f := q - (k : ℚ)
  if f < 1/2 then k
  else if 1/2 < f then k + 1
  else if k % 2 = 0 then k else k + 1

/-- Model of Python `round(q, n)`. -/
def roundTo (n : ℕ) (q : ℚ) : ℚ := (rhe (q * 10 ^ n) : ℚ) / 10 ^ n

/-! ### Configuration constants (`renewal_config.py`, `RenewalEngineConfig`) -/

def avg_vacancy_months : ℚ := 1.5
def turnover_cost_fixed : ℚ := 1500
def turnover_cost_letting_fee_multiplier : ℚ := 0.5
def weight_payment_history : ℚ := 0.30
def weight_maintenance_freq : ℚ := 0.15
def weight_lease_duration : ℚ := 0.15
def weight_market_delta : ℚ := 0.25
def weight_days_late_avg : ℚ := 0.15
def base_elasticity : ℚ := 0.035
def min_confidence_to_auto_send : ℚ := 0.65
def min_increase_pct : ℚ := 0.0
def max_increase_pct : ℚ := 15.0
def increase_step : ℚ := 1.0
def first_contact_days_before_expiry : ℤ := 90
def followup_days_no_response : ℤ := 7
def auto_list_days_no_response : ℤ := 14

/-! ### Scoring model (`renewal_prediction_service.py`)

A payment row keeps the fields the scorer reads; dates are day ordinals,
`none` standing for a missing or unparseable date. -/

structure Payment where
  status : String
  paid_at : Option ℤ
  updated_at : Option ℤ
  due_date : Option ℤ
  deriving Repr, DecidableEq

/-- Model of `payment.get("paid_at") or payment.get("updated_at")`. -/
def paidDate (p : Payment) : Option ℤ :=
  match p.paid_at with
  | some a => some a
  | none => p.updated_at

/-- Model of `_is_late`: paid date strictly after the due date. -/
def _is_late (p : Payment) : Bool :=
  match paidDate p, p.due_date with
  | some a, some b => b < a
  | _, _ => false

/-- Model of `_payment_history_score`. -/
def _payment_history_score (payments : List Payment) : ℚ :=
  if payments = [] then 0.5
  else ((payments.countP fun p => p.status == "paid" && !(_is_late p)) : ℚ) /
    (payments.length : ℚ)

/-- Days-late figure collected per late payment inside
`_avg_days_late_score`; the wildcard arm is the `except` branch. -/
def _late_days (p : Payment) : ℤ :=
  match paidDate p, p.due_date with
  | some a, some b => max 0 (a - b)
  | _, _ => 7

/-- Model of `_avg_days_late_score`. -/
def _avg_days_late_score (payments : List Payment) : ℚ :=
  let late := payments.filter _is_late
  if late = [] then 1
  else
    let delays := late.map _late_days
    let avg_delay : ℚ := ((delays.sum : ℤ) : ℚ) / (delays.length : ℚ)
    max 0 (1 - avg_delay / 30)

/-- Model of `_maintenance_frequency_score`; only the length of the
request list is read, so the list is carried as its length. -/
def _maintenance_frequency_score (request_count : ℕ) (lease_months : ℚ) : ℚ :=
  if lease_months ≤ 0 then 0.5
  else max 0 (1 - ((request_count : ℚ) / lease_months) / 3)

/-- Model of `_lease_duration_score`. -/
def _lease_duration_score (lease_months : ℚ) : ℚ :=
  min 1 (lease_months / 36)

/-- Model of `_market_delta_score`. -/
def _market_delta_score (current_rent market_rent : ℚ) : ℚ :=
  if market_rent ≤ 0 then 0.5
  else
    let delta_pct := (market_rent - current_rent) / market_rent
    let clamped := max (-0.15) (min 0.15 delta_pct)
    (clamped + 0.15) / 0.30

structure FeatureScores where
  payment_history : ℚ
  days_late_avg : ℚ
  maintenance_freq : ℚ
  lease_duration : ℚ
  market_delta : ℚ
  deriving Repr, DecidableEq

structure RenewalScoreResult where
  renewal_probability : ℚ
  churn_probability : ℚ
  confidence_score : ℚ
  feature_scores : FeatureScores
  deriving Repr, DecidableEq

/-- Model of `compute_renewal_probability`.  The returned probabilities
carry the `round(.., 4)` of the source. -/
def compute_renewal_probability (payments : List Payment)
    (maintenance_count : ℕ) (lease_months current_rent market_rent : ℚ) :
    RenewalScoreResult :=
  let scores : FeatureScores :=
    { payment_history := _payment_history_score payments
      days_late_avg := _avg_days_late_score payments
      maintenance_freq := _maintenance_frequency_score maintenance_count lease_months
      lease_duration := _lease_duration_score lease_months
      market_delta := _market_delta_score current_rent market_rent }
  let weighted_sum :=
    scores.payment_history * weight_payment_history +
    scores.days_late_avg * weight_days_late_avg +
    scores.maintenance_freq * weight_maintenance_freq +
    scores.lease_duration * weight_lease_duration +
    scores.market_delta * weight_market_delta
  let renewal_probability := max 0 (min 1 weighted_sum)
  let churn_probability := 1 - renewal_probability
  let data_richness := min 1 ((payments.length : ℚ) / 12)
  let confidence_score := 0.4 + 0.6 * data_richness
  { renewal_probability := roundTo 4 renewal_probability
    churn_probability := roundTo 4 churn_probability
    confidence_score := roundTo 4 confidence_score
    feature_scores := scores }

/-! ### Pricing simulator (`renewal_pricing_engine.py`) -/

/-- Model of `_compute_turnover_cost`. -/
def _compute_turnover_cost (current_rent : ℚ) : ℚ :=
  turnover_cost_fixed + current_rent * turnover_cost_letting_fee_multiplier

/-- Model of `_apply_elasticity`. -/
def _apply_elasticity (base_renewal_prob increase_pct market_delta_pct : ℚ) : ℚ :=
  let elasticity := max 0.01 (base_elasticity * (1 - market_delta_pct))
  let adjusted := base_renewal_prob - elasticity * increase_pct
  max 0 (min 1 adjusted)

/-- The `churn_revenue` term of `_expected_revenue`. -/
def churn_revenue (renewal_probability market_rent turnover_cost : ℚ) : ℚ :=
  (1 - renewal_probability) *
    (market_rent * (12 - avg_vacancy_months) - turnover_cost)

/-- Model of `_expected_revenue`. -/
def _expected_revenue (new_rent renewal_probability market_rent turnover_cost : ℚ) : ℚ :=
  renewal_probability * new_rent * 12 +
    churn_revenue renewal_probability market_rent turnover_cost

/-- Model of `_risk_label`. -/
def _risk_label (churn_probability : ℚ) : String :=
  if churn_probability < 0.30 then "low"
  else if churn_probability < 0.60 then "moderate"
  else "high"

structure Scenario where
  increase_pct : ℚ
  projected_renewal_probability : ℚ
  projected_revenue_12m : ℚ
  vacancy_risk : ℚ
  turnover_cost_estimate : ℚ
  expected_value : ℚ
  risk_label : String
  is_recommended : Bool
  deriving Repr, DecidableEq

/-- One loop body of `simulate_scenarios`: the scenario dict built for a
single increase step, before the recommendation pass. -/
def mkScenario (base_renewal_prob current_rent market_rent market_delta_pct
    turnover_cost increase : ℚ) : Scenario :=
  let new_rent := current_rent * (1 + increase / 100)
  let adj_renewal_prob := _apply_elasticity base_renewal_prob increase market_delta_pct
  let adj_churn_prob := 1 - adj_renewal_prob
  let ev := _expected_revenue new_rent adj_renewal_prob market_rent turnover_cost
  { increase_pct := roundTo 1 increase
    projected_renewal_probability := roundTo 4 adj_renewal_prob
    projected_revenue_12m := roundTo 2 ev
    vacancy_risk := roundTo 4 (adj_churn_prob * avg_vacancy_months / 12)
    turnover_cost_estimate := roundTo 2 (turnover_cost * adj_churn_prob)
    expected_value := roundTo 2 ev
    risk_label := _risk_label adj_churn_prob
    is_recommended := false }

/-- The `while increase <= cfg.max_increase_pct + 1e-9` loop that builds
the grid of increase percentages, with explicit fuel (the source loop
terminates because the step is positive). -/
def buildGrid : ℕ → ℚ → ℚ → ℚ → List ℚ
  | 0, _, _, _ => []
  | fuel + 1, cur, maxI, step =>
    if cur ≤ maxI + 1e-9 then cur :: buildGrid fuel (cur + step) maxI step
    else []

/-- The default grid swept by `simulate_scenarios` under
`RenewalEngineConfig`: 0% to 15% in 1% steps. -/
def defaultGrid : List ℚ := buildGrid 1000 min_increase_pct max_increase_pct increase_step

/-- Model of Python `max(xs, key=...)` over the expected values: returns
the index and value of the first maximal element.  The accumulator is
replaced only on a strictly greater value, as `max` keeps the first
maximum. -/
def bestAux : List ℚ → ℕ → ℕ → ℚ → ℕ × ℚ
  | [], _, bi, be => (bi, be)
  | e :: es, i, bi, be =>
    if be < e then bestAux es (i + 1) i e else bestAux es (i + 1) bi be

/-- Index and value of the first maximum of a list (0 and 0 on the empty
list, on which the Python `max` would raise). -/
def pyMax : List ℚ → ℕ × ℚ
  | [] => (0, 0)
  | e :: es => bestAux es 1 0 e

/-- Model of `best["is_recommended"] = True`: set the flag on the list
element at the given position. -/
def markAt : ℕ → List Scenario → List Scenario
  | _, [] => []
  | 0, s :: rest => { s with is_recommended := true } :: rest
  | n + 1, s :: rest => s :: markAt n rest

/-- Model of `simulate_scenarios`, parametric in the swept grid of
increase percentages (the source builds `defaultGrid`). -/
def simulate_scenarios (base_renewal_prob current_rent market_rent : ℚ)
    (grid : List ℚ) : List Scenario :=
  let market_delta_pct := (market_rent - current_rent) / max current_rent 1
  let turnover_cost := _compute_turnover_cost current_rent
  let scenarios := grid.map
    (mkScenario base_renewal_prob current_rent market_rent market_delta_pct turnover_cost)
  markAt (pyMax (scenarios.map (·.expected_value))).1 scenarios

/-! ### Negotiation engine (`renewal_negotiation_service.py`, `analyse_tenant_response`)

The landlord terms are the `_landlord_terms` dict embedded in the offer's
`ai_generated_content`; `none` stands for a missing key (or, for the
whole record, for a missing or empty dict).  The AI analysis record is
the payload after the `setdefault` calls, so every field is total; the
theorems quantify over it, covering both the Claude output and the
keyword fallback. -/

structure StoredLandlordTerms where
  min_acceptable_rent : Option ℚ
  preferred_duration_months : Option ℤ
  concessions : Option String
  auto_negotiate : Option Bool
  deriving Repr, DecidableEq

structure NegOffer where
  status : String
  proposed_rent : ℚ
  lease_monthly_rent : ℚ
  landlord_terms : Option StoredLandlordTerms
  deriving Repr, DecidableEq

structure NegotiationAnalysis where
  sentiment_score : ℚ
  sentiment_label : String
  classification : String
  new_renewal_probability : ℚ
  suggested_counter_rent : Option ℚ
  response_to_tenant : String
  conclude_deal : Bool
  trigger_relisting : Bool
  escalate_to_landlord : Bool
  deriving Repr, DecidableEq

/-- Row appended to `renewal_negotiation_logs`. -/
structure NegotiationLogRow where
  tenant_message : String
  sentiment_score : ℚ
  classification : String
  ai_suggested_response : String
  ai_suggested_counter_rent : Option ℚ
  deriving Repr, DecidableEq

structure NegotiationResult where
  min_rent : ℚ
  preferred_duration : ℤ
  auto_negotiate : Bool
  escalate : Bool
  suggested_counter_rent : Option ℚ
  response_text : String
  new_status : String
  log_row : NegotiationLogRow
  offer_after : NegOffer
  outcome_written : Bool
  response_sent : Bool
  deriving Repr, DecidableEq

/-- Model of Python `float(x or default)`: a missing or zero value falls
back to the default. -/
def orFloat (x : Option ℚ) (d : ℚ) : ℚ :=
  match x with
  | some v => if v = 0 then d else v
  | none => d

/-- Model of Python `int(x or default)` for the preferred duration. -/
def orInt (x : Option ℤ) (d : ℤ) : ℤ :=
  match x with
  | some v => if v = 0 then d else v
  | none => d

/-- The neutral holding message that overrides the reply when a counter
breaches the floor. -/
def holding_response : String :=
  "Thank you for your proposal. Let me check with the property manager on this and get back to you shortly."

/-- Python truthiness of the suggested counter (`if counter_rent and ...`):
`None` and `0` are falsy. -/
def truthyCounter : Option ℚ → Bool
  | none => false
  | some c => c != 0

/-- Model of the pure decision core of `analyse_tenant_response` for one
inbound tenant message: landlord-term extraction, floor safety check,
status mapping, log row, offer update and autonomous-reply decision. -/
def analyse_tenant_response (offer : NegOffer) (tenant_message : String)
    (tenant_phone_present : Bool) (analysis : NegotiationAnalysis) :
    NegotiationResult :=
  let terms := offer.landlord_terms.getD ⟨none, none, none, none⟩
  let min_rent := orFloat terms.min_acceptable_rent (offer.proposed_rent * 0.95)
  let preferred_duration := orInt terms.preferred_duration_months 12
  let auto_negotiate := terms.auto_negotiate.getD true
  let floor_breach : Bool :=
    match analysis.suggested_counter_rent with
    | some c => c != 0 && c < min_rent
    | none => false
  let escalate := analysis.escalate_to_landlord || floor_breach
  let counter_rent : Option ℚ :=
    if floor_breach then none else analysis.suggested_counter_rent
  let response_text :=
    if floor_breach then holding_response else analysis.response_to_tenant
  let new_status :=
    if analysis.conclude_deal then "accepted"
    else if analysis.trigger_relisting then "rejected"
    else if analysis.classification == "negotiating" && !escalate then "countered"
    else "pending"
  let offer_after :=
    { offer with
      status := new_status
      proposed_rent :=
        if new_status == "countered" && truthyCounter counter_rent then
          roundTo 2 (counter_rent.getD 0)
        else offer.proposed_rent }
  { min_rent := min_rent
    preferred_duration := preferred_duration
    auto_negotiate := auto_negotiate
    escalate := escalate
    suggested_counter_rent := counter_rent
    response_text := response_text
    new_status := new_status
    log_row :=
      { tenant_message := tenant_message
        sentiment_score := analysis.sentiment_score
        classification := analysis.classification
        ai_suggested_response := response_text
        ai_suggested_counter_rent := counter_rent }
    offer_after := offer_after
    outcome_written := analysis.conclude_deal || analysis.trigger_relisting
    response_sent := auto_negotiate && tenant_phone_present && response_text != "" }

/-! ### Offer dispatcher (`renewal_workflow_service.py`, `initiate_renewal`) -/

/-- The landlord-terms dict passed to `initiate_renewal` (the fields the
function reads). -/
structure InitLandlordTerms where
  min_acceptable_rent : Option ℚ
  preferred_duration_months : Option ℤ
  deriving Repr, DecidableEq

/-- The `renewal_offers` row as written by `initiate_renewal`. -/
structure OfferRow where
  proposed_rent : ℚ
  lease_duration_months : ℤ
  status : String
  channel : String
  sent_at : Option ℤ
  deriving Repr, DecidableEq

structure InitiateResult where
  requires_approval : Bool
  send_attempted : Bool
  sent : Bool
  offer_inserted : OfferRow
  offer_final : OfferRow
  returned_proposed_rent : ℚ
  notified_low_confidence : Bool
  deriving Repr, DecidableEq

/-- Model of `_send_offer`: delivery is attempted only on a channel with
a contact; `channel_ok` is the outcome of the external send call. -/
def _send_offer (channel : String) (has_whatsapp has_email channel_ok : Bool) : Bool :=
  if channel == "whatsapp" && has_whatsapp then channel_ok
  else if channel == "email" && has_email then channel_ok
  else false

/-- Model of `initiate_renewal` after the pricing simulation: channel
choice, confidence gate, offer insert, and the floor fix-up that runs
after the insert.  `offer_inserted` is the row as first written,
`offer_final` the row after the below-floor update. -/
def initiate_renewal (current_rent recommended_increase_pct confidence : ℚ)
    (landlord_terms : Option InitLandlordTerms)
    (has_whatsapp has_email channel_ok : Bool) (now : ℤ) : InitiateResult :=
  let channel := if has_whatsapp then "whatsapp" else if has_email then "email" else "in_app"
  let requires_approval := confidence < min_confidence_to_auto_send
  let send_success :=
    if requires_approval then false
    else _send_offer channel has_whatsapp has_email channel_ok
  let sent_at : Option ℤ :=
    if requires_approval then none
    else if send_success then some now else none
  let proposed_rent := current_rent * (1 + recommended_increase_pct / 100)
  let preferred_duration := ((landlord_terms.map (·.preferred_duration_months)).join).getD 12
  let offer_row : OfferRow :=
    { proposed_rent := roundTo 2 proposed_rent
      lease_duration_months := preferred_duration
      status := "pending"
      channel := channel
      sent_at := sent_at }
  let floor : Option ℚ :=
    match landlord_terms with
    | none => none
    | some t =>
      match t.min_acceptable_rent with
      | some f => if f = 0 then none else some f
      | none => none
  let offer_final :=
    match floor with
    | some f =>
      if proposed_rent < f then { offer_row with proposed_rent := roundTo 2 f }
      else offer_row
    | none => offer_row
  let returned_proposed_rent :=
    match floor with
    | some f => if proposed_rent < f then roundTo 2 f else roundTo 2 proposed_rent
    | none => roundTo 2 proposed_rent
  { requires_approval := requires_approval
    send_attempted := !requires_approval
    sent := send_success
    offer_inserted := offer_row
    offer_final := offer_final
    returned_proposed_rent := returned_proposed_rent
    notified_low_confidence := requires_approval }

/-! ### Scheduled workflow (`renewal_workflow_service.py`, `run_scheduled_workflow`)

The store is a list of leases and a list of offers; timestamps are day
ordinals (ISO strings compare lexicographically, hence chronologically).
`init_sent` abstracts the per-lease outcome of `initiate_renewal`: whether
the freshly inserted offer was delivered (`sent_at = now`) or not. -/

structure WfLease where
  lid : ℕ
  status : String
  end_date : ℤ
  deriving Repr, DecidableEq

structure WfOffer where
  oid : ℕ
  lease_id : ℕ
  status : String
  sent_at : Option ℤ
  follow_up_count : ℕ
  follow_up_sent_at : Option ℤ
  deriving Repr, DecidableEq

structure WfState where
  leases : List WfLease
  offers : List WfOffer
  next_oid : ℕ
  deriving Repr, DecidableEq

structure SweepSummary where
  initiated : List ℕ
  followed_up : List ℕ
  auto_listed : List ℕ
  deriving Repr, DecidableEq

/-- The offer row inserted by `initiate_renewal` for a lease during the
sweep: status pending, no follow-ups, `sent_at` stamped with the current
time exactly when the send succeeded. -/
def new_offer (init_sent : ℕ → Bool) (now : ℤ) (oid lid : ℕ) : WfOffer :=
  { oid := oid
    lease_id := lid
    status := "pending"
    sent_at := if init_sent lid then some now else none
    follow_up_count := 0
    follow_up_sent_at := none }

/-- One iteration of the initiate loop: skip the lease if any offer row
already references it, else insert a fresh offer. -/
def initiate_step (init_sent : ℕ → Bool) (now : ℤ) :
    WfState × List ℕ → WfLease → WfState × List ℕ
  | (st, acc), l =>
    if st.offers.any fun o => o.lease_id == l.lid then (st, acc)
    else
      ({ st with
          offers := st.offers ++ [new_offer init_sent now st.next_oid l.lid]
          next_oid := st.next_oid + 1 },
        acc ++ [l.lid])

/-- `status = "expired"` update of the auto-list branch. -/
def expire_offer (o : WfOffer) : WfOffer := { o with status := "expired" }

/-- Update written by `send_follow_up`. -/
def follow_offer (now : ℤ) (o : WfOffer) : WfOffer :=
  { o with
    follow_up_count := o.follow_up_count + 1
    follow_up_sent_at := some now }

/-- `update(...).eq("id", oid)` on the offers table. -/
def update_by_id (f : WfOffer → WfOffer) (i : ℕ) (l : List WfOffer) : List WfOffer :=
  l.map fun o => if o.oid == i then f o else o

/-- One iteration of the follow-up loop over the snapshot of pending sent
offers: auto-list after 14 silent days once a follow-up exists, else
follow up after 7 silent days when none was sent yet. -/
def followup_step (now : ℤ) :
    WfState × List ℕ × List ℕ → WfOffer → WfState × List ℕ × List ℕ
  | (st, fu, al), o =>
    match o.sent_at with
    | none => (st, fu, al)
    | some t =>
      if t ≤ now - auto_list_days_no_response ∧ 1 ≤ o.follow_up_count then
        ({ st with offers := update_by_id expire_offer o.oid st.offers },
          fu, al ++ [o.lease_id])
      else if t ≤ now - followup_days_no_response ∧ o.follow_up_count = 0 then
        ({ st with offers := update_by_id (follow_offer now) o.oid st.offers },
          fu ++ [o.oid], al)
      else (st, fu, al)

/-- The initiate query: active leases whose end date lies in the window
centered `first_contact_days_before_expiry` days out, ±5 days. -/
def renewal_candidate (now : ℤ) (l : WfLease) : Bool :=
  l.status == "active" &&
    decide (now + (first_contact_days_before_expiry - 5) ≤ l.end_date) &&
    decide (l.end_date ≤ now + (first_contact_days_before_expiry + 5))

/-- The follow-up query: offers with status pending and a non-null
`sent_at`. -/
def pending_sent (o : WfOffer) : Bool :=
  o.status == "pending" && o.sent_at.isSome

/-- The initiate pass of the sweep: fold over the candidate leases. -/
def phase1 (init_sent : ℕ → Bool) (now : ℤ) (st : WfState) : WfState × List ℕ :=
  (st.leases.filter (renewal_candidate now)).foldl (initiate_step init_sent now) (st, [])

/-- Model of `run_scheduled_workflow`: initiate for active leases whose
end date falls in the 90-day window (±5 days), then sweep the snapshot
of pending, sent offers for follow-ups and auto-listing. -/
def run_scheduled_workflow (init_sent : ℕ → Bool) (now : ℤ) (st : WfState) :
    WfState × SweepSummary :=
  let step1 := phase1 init_sent now st
  let snapshot := step1.1.offers.filter pending_sent
  let step2 := snapshot.foldl (followup_step now) (step1.1, [], [])
  (step2.1, ⟨step1.2, step2.2.1, step2.2.2⟩)

/-- The auto-list guard of the sweep, as a predicate of the offer row. -/
def auto_list_cond (now : ℤ) (o : WfOffer) : Bool :=
  match o.sent_at with
  | some t => decide (t ≤ now - auto_list_days_no_response) &&
      decide (1 ≤ o.follow_up_count)
  | none => false

/-- The follow-up guard of the sweep (the `elif`), as a predicate of the
offer row. -/
def follow_cond (now : ℤ) (o : WfOffer) : Bool :=
  match o.sent_at with
  | some t => !(auto_list_cond now o) &&
      (decide (t ≤ now - followup_days_no_response) &&
        decide (o.follow_up_count = 0))
  | none => false

/-- The effect of one sweep iteration on the offer row it visits. -/
def sweep_offer_step (now : ℤ) (o : WfOffer) : WfOffer :=
  if auto_list_cond now o then expire_offer o
  else if follow_cond now o then follow_offer now o
  else o

/-- Offer-table well-formedness: row ids are distinct and below the next
fresh id. -/
def WfStateOk (st : WfState) : Prop :=
  (st.offers.map (·.oid)).Nodup ∧ ∀ o ∈ st.offers, o.oid < st.next_oid

instance : DecidablePred WfStateOk := fun st => by
  unfold WfStateOk; infer_instance

/-! ## Rounding lemmas -/

theorem rat_floor_eq_floor (q : ℚ) : q.floor = ⌊q⌋ := by
  rw [Rat.floor_def', Rat.floor_def]

theorem rhe_eq (q : ℚ) : rhe q =
    if Int.fract q < 1/2 then ⌊q⌋
    else if 1/2 < Int.fract q then ⌊q⌋ + 1
    else if ⌊q⌋ % 2 = 0 then ⌊q⌋ else ⌊q⌋ + 1 := by
  simp only [rhe, rat_floor_eq_floor, Int.fract]

/-- Rounding to nearest-even sends a pair summing to an even integer to
integers summing to that integer. -/
theorem rhe_add_compl (N : ℤ) (hN : N % 2 = 0) (x : ℚ) :
    rhe x + rhe ((N : ℚ) - x) = N := by
  rw [rhe_eq, rhe_eq]
  have hf0 : 0 ≤ Int.fract x := Int.fract_nonneg x
  have hf1 : Int.fract x < 1 := Int.fract_lt_one x
  have hxkf : (⌊x⌋ : ℚ) + Int.fract x = x := Int.floor_add_fract x
  by_cases h0 : Int.fract x = 0
  · have hx : (⌊x⌋ : ℚ) = x := by linarith [hxkf]
    have hsub : (N : ℚ) - x = ((N - ⌊x⌋ : ℤ) : ℚ) := by push_cast; linarith
    rw [hsub, Int.fract_intCast, Int.floor_intCast, h0]
    norm_num
  · have hf0' : 0 < Int.fract x := lt_of_le_of_ne hf0 (Ne.symm h0)
    have hfl : ⌊(N : ℚ) - x⌋ = N - ⌊x⌋ - 1 := by
      rw [Int.floor_eq_iff]
      constructor
      · push_cast; linarith
      · push_cast; linarith
    have hfr : Int.fract ((N : ℚ) - x) = 1 - Int.fract x := by
      rw [Int.fract, hfl]; push_cast; linarith
    rw [hfl, hfr]
    rcases lt_trichotomy (Int.fract x) (1/2) with hlt | heq | hgt
    · rw [if_pos hlt, if_neg (by linarith : ¬(1 - Int.fract x < 1/2)),
        if_pos (by linarith : (1:ℚ)/2 < 1 - Int.fract x)]
      omega
    · rw [heq]
      norm_num
      split_ifs <;> omega
    · rw [if_neg (by linarith : ¬(Int.fract x < 1/2)), if_pos hgt,
        if_pos (by linarith : 1 - Int.fract x < 1/2)]
      omega

/-- The two probabilities returned by the scorer are each rounded to four
decimals, yet still sum to exactly one. -/
theorem roundTo4_sum_compl (p : ℚ) : roundTo 4 p + roundTo 4 (1 - p) = 1 := by
  unfold roundTo
  have h : (1 - p) * 10 ^ 4 = ((10000 : ℤ) : ℚ) - p * 10 ^ 4 := by push_cast; ring
  rw [h]
  have h2 := rhe_add_compl 10000 (by decide) (p * 10 ^ 4)
  have h3 : ((rhe (p * 10 ^ 4) : ℚ) + (rhe (((10000 : ℤ) : ℚ) - p * 10 ^ 4) : ℚ)) = 10000 := by
    exact_mod_cast congrArg (fun z : ℤ => (z : ℚ)) h2
  rw [div_add_div_same]
  rw [h3]
  norm_num

/-! ## Scoring model: sub-score bounds -/

theorem payment_history_score_bounds (payments : List Payment) :
    0 ≤ _payment_history_score payments ∧ _payment_history_score payments ≤ 1 := by
  unfold _payment_history_score
  split
  · norm_num
  · rename_i hne
    have hlen : 0 < payments.length := List.length_pos.mpr hne
    have hlenQ : (0 : ℚ) < (payments.length : ℚ) := by exact_mod_cast hlen
    have hcount : (payments.countP fun p => p.status == "paid" && !(_is_late p)) ≤
        payments.length := List.countP_le_length _
    constructor
    · positivity
    · rw [div_le_one hlenQ]
      exact_mod_cast hcount

theorem late_days_nonneg (p : Payment) : 0 ≤ _late_days p := by
  unfold _late_days
  cases hpd : paidDate p <;> cases hdd : p.due_date <;> simp [hpd, hdd]

theorem avg_days_late_score_bounds (payments : List Payment) :
    0 ≤ _avg_days_late_score payments ∧ _avg_days_late_score payments ≤ 1 := by
  simp only [_avg_days_late_score]
  by_cases hc : payments.filter _is_late = []
  · rw [if_pos hc]
    norm_num
  · rw [if_neg hc]
    set late := payments.filter _is_late with hlate
    set delays := late.map _late_days with hdelays
    have hsum : (0 : ℤ) ≤ delays.sum := by
      apply List.sum_nonneg
      intro x hx
      rw [hdelays] at hx
      obtain ⟨p, _, rfl⟩ := List.mem_map.mp hx
      exact late_days_nonneg p
    have hlen : (0 : ℚ) ≤ (delays.length : ℚ) := by positivity
    have havg : (0 : ℚ) ≤ ((delays.sum : ℤ) : ℚ) / (delays.length : ℚ) := by
      apply div_nonneg _ hlen
      exact_mod_cast hsum
    constructor
    · exact le_max_left 0 _
    · apply max_le (by norm_num)
      have : 0 ≤ ((delays.sum : ℤ) : ℚ) / (delays.length : ℚ) / 30 := by positivity
      linarith

theorem maintenance_frequency_score_bounds (n : ℕ) (m : ℚ) :
    0 ≤ _maintenance_frequency_score n m ∧ _maintenance_frequency_score n m ≤ 1 := by
  unfold _maintenance_frequency_score
  split
  · norm_num
  · rename_i hm
    have hm' : 0 < m := lt_of_not_le hm
    have hdiv : 0 ≤ ((n : ℚ) / m) / 3 := by positivity
    exact ⟨le_max_left 0 _, max_le (by norm_num) (by linarith)⟩

theorem lease_duration_score_bounds (m : ℚ) (hm : 0 ≤ m) :
    0 ≤ _lease_duration_score m ∧ _lease_duration_score m ≤ 1 := by
  unfold _lease_duration_score
  exact ⟨le_min (by norm_num) (by positivity), min_le_left 1 _⟩

theorem market_delta_score_bounds (c r : ℚ) :
    0 ≤ _market_delta_score c r ∧ _market_delta_score c r ≤ 1 := by
  unfold _market_delta_score
  split
  · norm_num
  · rename_i hr
    set d := (r - c) / r with hd
    have h1 : -0.15 ≤ max (-0.15) (min 0.15 d) := le_max_left _ _
    have h2 : max (-0.15) (min 0.15 d) ≤ 0.15 :=
      max_le (by norm_num) (min_le_left _ _)
    constructor
    · apply div_nonneg _ (by norm_num : (0:ℚ) ≤ 0.30)
      linarith
    · rw [div_le_one (by norm_num : (0:ℚ) < 0.30)]
      linarith

set_option maxRecDepth 1000000

/-! ## Claim C8 -/

/-- Claim C8 as stated is false: the claim quantifies over any
lease-month count, but `_lease_duration_score` is `min 1 (m / 36)` with
no lower clamp, so a negative lease-month count yields a sub-score below
zero (here `-2` for `m = -72`). -/
theorem claim_C8_counterexample :
    (compute_renewal_probability [] 0 (-72) 1000 1050).feature_scores.lease_duration < 0 := by
  with_unfolding_all decide

/-- Claim C8 (amended): for every payment list, maintenance count,
nonnegative lease-month count and any rents, each of the five sub-scores
lies in [0,1], and the returned renewal and churn probabilities (each
rounded to four decimals) sum to exactly 1.  The probability identity
holds for all inputs; only the sub-score bounds need the nonnegative
tenancy length. -/
theorem claim_C8_amended (payments : List Payment) (maintenance_count : ℕ)
    (lease_months current_rent market_rent : ℚ) (hm : 0 ≤ lease_months) :
    (0 ≤ (compute_renewal_probability payments maintenance_count lease_months current_rent market_rent).feature_scores.payment_history ∧
      (compute_renewal_probability payments maintenance_count lease_months current_rent market_rent).feature_scores.payment_history ≤ 1) ∧
    (0 ≤ (compute_renewal_probability payments maintenance_count lease_months current_rent market_rent).feature_scores.days_late_avg ∧
      (compute_renewal_probability payments maintenance_count lease_months current_rent market_rent).feature_scores.days_late_avg ≤ 1) ∧
    (0 ≤ (compute_renewal_probability payments maintenance_count lease_months current_rent market_rent).feature_scores.maintenance_freq ∧
      (compute_renewal_probability payments maintenance_count lease_months current_rent market_rent).feature_scores.maintenance_freq ≤ 1) ∧
    (0 ≤ (compute_renewal_probability payments maintenance_count lease_months current_rent market_rent).feature_scores.lease_duration ∧
      (compute_renewal_probability payments maintenance_count lease_months current_rent market_rent).feature_scores.lease_duration ≤ 1) ∧
    (0 ≤ (compute_renewal_probability payments maintenance_count lease_months current_rent market_rent).feature_scores.market_delta ∧
      (compute_renewal_probability payments maintenance_count lease_months current_rent market_rent).feature_scores.market_delta ≤ 1) ∧
    (compute_renewal_probability payments maintenance_count lease_months current_rent market_rent).renewal_probability +
      (compute_renewal_probability payments maintenance_count lease_months current_rent market_rent).churn_probability = 1 := by
  refine ⟨?_, ?_, ?_, ?_, ?_, ?_⟩
  · exact payment_history_score_bounds payments
  · exact avg_days_late_score_bounds payments
  · exact maintenance_frequency_score_bounds maintenance_count lease_months
  · exact lease_duration_score_bounds lease_months hm
  · exact market_delta_score_bounds current_rent market_rent
  · exact roundTo4_sum_compl _

/-- Witness for claim C8 at a concrete input with 0 ≤ lease months. -/
theorem claim_C8_witness :
    (0:ℚ) ≤ 24 ∧
    ((0 ≤ (compute_renewal_probability [] 0 24 1000 1050).feature_scores.payment_history ∧
      (compute_renewal_probability [] 0 24 1000 1050).feature_scores.payment_history ≤ 1) ∧
    (0 ≤ (compute_renewal_probability [] 0 24 1000 1050).feature_scores.days_late_avg ∧
      (compute_renewal_probability [] 0 24 1000 1050).feature_scores.days_late_avg ≤ 1) ∧
    (0 ≤ (compute_renewal_probability [] 0 24 1000 1050).feature_scores.maintenance_freq ∧
      (compute_renewal_probability [] 0 24 1000 1050).feature_scores.maintenance_freq ≤ 1) ∧
    (0 ≤ (compute_renewal_probability [] 0 24 1000 1050).feature_scores.lease_duration ∧
      (compute_renewal_probability [] 0 24 1000 1050).feature_scores.lease_duration ≤ 1) ∧
    (0 ≤ (compute_renewal_probability [] 0 24 1000 1050).feature_scores.market_delta ∧
      (compute_renewal_probability [] 0 24 1000 1050).feature_scores.market_delta ≤ 1) ∧
    (compute_renewal_probability [] 0 24 1000 1050).renewal_probability +
      (compute_renewal_probability [] 0 24 1000 1050).churn_probability = 1) :=
  ⟨by norm_num, claim_C8_amended [] 0 24 1000 1050 (by norm_num)⟩

/-! ## Pricing simulator: the recommendation pass -/

theorem bestAux_get : ∀ (es l : List ℚ) (i bi : ℕ) (be : ℚ),
    l[bi]? = some be → (∀ j, l[i + j]? = es[j]?) →
    l[(bestAux es i bi be).1]? = some (bestAux es i bi be).2 := by
  intro es
  induction es with
  | nil => intro l i bi be h1 _; simpa [bestAux] using h1
  | cons e es ih =>
    intro l i bi be h1 h2
    simp only [bestAux]
    by_cases hbe : be < e
    · rw [if_pos hbe]
      apply ih l (i + 1) i e
      · have h0 := h2 0
        simpa using h0
      · intro j
        have hj := h2 (j + 1)
        have harith : i + (j + 1) = i + 1 + j := by omega
        rw [harith] at hj
        simpa using hj
    · rw [if_neg hbe]
      apply ih l (i + 1) bi be h1
      intro j
      have hj := h2 (j + 1)
      have harith : i + (j + 1) = i + 1 + j := by omega
      rw [harith] at hj
      simpa using hj

theorem bestAux_le : ∀ (es : List ℚ) (i bi : ℕ) (be : ℚ),
    be ≤ (bestAux es i bi be).2 ∧ ∀ x ∈ es, x ≤ (bestAux es i bi be).2 := by
  intro es
  induction es with
  | nil => intro i bi be; exact ⟨le_refl _, by simp⟩
  | cons e es ih =>
    intro i bi be
    simp only [bestAux]
    by_cases hbe : be < e
    · rw [if_pos hbe]
      obtain ⟨h1, h2⟩ := ih (i + 1) i e
      refine ⟨le_of_lt (lt_of_lt_of_le hbe h1), ?_⟩
      intro x hx
      rcases List.mem_cons.mp hx with rfl | hx
      · exact h1
      · exact h2 x hx
    · rw [if_neg hbe]
      obtain ⟨h1, h2⟩ := ih (i + 1) bi be
      refine ⟨h1, ?_⟩
      intro x hx
      rcases List.mem_cons.mp hx with rfl | hx
      · exact le_trans (le_of_not_lt hbe) h1
      · exact h2 x hx

theorem bestAux_idx_lt : ∀ (es : List ℚ) (i bi : ℕ) (be : ℚ),
    bi < i → (bestAux es i bi be).1 < i + es.length := by
  intro es
  induction es with
  | nil => intro i bi be h; simpa [bestAux] using h
  | cons e es ih =>
    intro i bi be h
    simp only [bestAux]
    by_cases hbe : be < e
    · rw [if_pos hbe]
      have := ih (i + 1) i e (by omega)
      simpa [Nat.add_assoc] using by omega
    · rw [if_neg hbe]
      have := ih (i + 1) bi be (by omega)
      simp only [List.length_cons]
      omega

theorem pyMax_get (l : List ℚ) (h : l ≠ []) : l[(pyMax l).1]? = some (pyMax l).2 := by
  match l with
  | [] => exact absurd rfl h
  | e :: es =>
    apply bestAux_get es (e :: es) 1 0 e
    · simp
    · intro j
      have : 1 + j = j + 1 := by omega
      rw [this]
      simp

theorem pyMax_le (l : List ℚ) : ∀ x ∈ l, x ≤ (pyMax l).2 := by
  match l with
  | [] => simp
  | e :: es =>
    intro x hx
    obtain ⟨h1, h2⟩ := bestAux_le es 1 0 e
    rcases List.mem_cons.mp hx with rfl | hx
    · exact h1
    · exact h2 x hx

theorem pyMax_idx_lt (l : List ℚ) (h : l ≠ []) : (pyMax l).1 < l.length := by
  match l with
  | [] => exact absurd rfl h
  | e :: es =>
    have h2 := bestAux_idx_lt es 1 0 e (by omega)
    show (bestAux es 1 0 e).1 < (e :: es).length
    simp only [List.length_cons]
    omega

theorem markAt_countP (n : ℕ) (l : List Scenario) (hn : n < l.length)
    (hall : ∀ s ∈ l, s.is_recommended = false) :
    (markAt n l).countP (·.is_recommended) = 1 := by
  induction l generalizing n with
  | nil => simp at hn
  | cons a rest ih =>
    cases n with
    | zero =>
      simp only [markAt]
      rw [List.countP_cons_of_pos _ _ (by simp)]
      have : rest.countP (·.is_recommended) = 0 := by
        apply List.countP_eq_zero.mpr
        intro s hs
        simp [hall s (List.mem_cons_of_mem a hs)]
      omega
    | succ n =>
      simp only [markAt]
      rw [List.countP_cons_of_neg _ _ (by simp [hall a (List.mem_cons_self a rest)])]
      exact ih n (by simpa using hn) (fun s hs => hall s (List.mem_cons_of_mem a hs))

theorem markAt_map_ev (n : ℕ) (l : List Scenario) :
    (markAt n l).map (·.expected_value) = l.map (·.expected_value) := by
  induction l generalizing n with
  | nil => simp [markAt]
  | cons a rest ih =>
    cases n with
    | zero => simp [markAt]
    | succ n => simp [markAt, ih n]

theorem markAt_flag_ev (n : ℕ) (l : List Scenario)
    (hall : ∀ s ∈ l, s.is_recommended = false) :
    ∀ s ∈ markAt n l, s.is_recommended = true →
      (l.map (·.expected_value))[n]? = some s.expected_value := by
  induction l generalizing n with
  | nil => simp [markAt]
  | cons a rest ih =>
    cases n with
    | zero =>
      intro s hs hflag
      simp only [markAt] at hs
      rcases List.mem_cons.mp hs with rfl | hs
      · simp
      · exact absurd hflag (by simp [hall s (List.mem_cons_of_mem a hs)])
    | succ n =>
      intro s hs hflag
      simp only [markAt] at hs
      rcases List.mem_cons.mp hs with rfl | hs
      · exact absurd hflag (by simp [hall s (List.mem_cons_self s rest)])
      · have := ih n (fun x hx => hall x (List.mem_cons_of_mem a hx)) s hs hflag
        simpa using this

/-- The recommendation pass marks exactly one scenario, and it carries
the maximal expected value, for any flag-clean nonempty batch. -/
theorem mark_best_spec (scs : List Scenario) (hne : scs ≠ [])
    (hall : ∀ s ∈ scs, s.is_recommended = false) :
    ((markAt (pyMax (scs.map (·.expected_value))).1 scs).countP (·.is_recommended) = 1) ∧
    ∀ s ∈ markAt (pyMax (scs.map (·.expected_value))).1 scs, s.is_recommended = true →
      ∀ t ∈ markAt (pyMax (scs.map (·.expected_value))).1 scs,
        t.expected_value ≤ s.expected_value := by
  have hevne : scs.map (·.expected_value) ≠ [] := by
    simpa [List.map_eq_nil_iff] using hne
  have hidx : (pyMax (scs.map (·.expected_value))).1 < scs.length := by
    have := pyMax_idx_lt _ hevne
    simpa [List.length_map] using this
  constructor
  · exact markAt_countP _ _ hidx hall
  · intro s hs hflag t ht
    have hev := markAt_flag_ev _ scs hall s hs hflag
    have hmax := pyMax_get _ hevne
    have heq : s.expected_value = (pyMax (scs.map (·.expected_value))).2 :=
      Option.some.inj (hev.symm.trans hmax)
    have htev : t.expected_value ∈ scs.map (·.expected_value) := by
      have hmem : t.expected_value ∈
          (markAt (pyMax (scs.map (·.expected_value))).1 scs).map (·.expected_value) :=
        List.mem_map_of_mem _ ht
      rwa [markAt_map_ev] at hmem
    calc t.expected_value ≤ (pyMax (scs.map (·.expected_value))).2 := pyMax_le _ _ htev
    _ = s.expected_value := heq.symm

/-! ## Claim C4 -/

/-- Claim C4: for every simulation run over a non-empty grid, exactly one
scenario in the returned batch is marked `is_recommended`, and that
scenario's `expected_value` is maximal over the batch. -/
theorem claim_C4 (base_renewal_prob current_rent market_rent : ℚ)
    (grid : List ℚ) (hg : grid ≠ []) :
    ((simulate_scenarios base_renewal_prob current_rent market_rent grid).countP
        (·.is_recommended) = 1) ∧
    ∀ s ∈ simulate_scenarios base_renewal_prob current_rent market_rent grid,
      s.is_recommended = true →
      ∀ t ∈ simulate_scenarios base_renewal_prob current_rent market_rent grid,
        t.expected_value ≤ s.expected_value := by
  have hne : grid.map (mkScenario base_renewal_prob current_rent market_rent
      ((market_rent - current_rent) / max current_rent 1)
      (_compute_turnover_cost current_rent)) ≠ [] := by
    simpa [List.map_eq_nil_iff] using hg
  have hall : ∀ s ∈ grid.map (mkScenario base_renewal_prob current_rent market_rent
      ((market_rent - current_rent) / max current_rent 1)
      (_compute_turnover_cost current_rent)), s.is_recommended = false := by
    intro s hs
    obtain ⟨x, _, rfl⟩ := List.mem_map.mp hs
    rfl
  exact mark_best_spec _ hne hall

/-- Witness for claim C4 on a concrete two-point grid. -/
theorem claim_C4_witness :
    ([0, 5] : List ℚ) ≠ [] ∧
    (((simulate_scenarios 0.5 1000 1100 [0, 5]).countP (·.is_recommended) = 1) ∧
    ∀ s ∈ simulate_scenarios 0.5 1000 1100 [0, 5], s.is_recommended = true →
      ∀ t ∈ simulate_scenarios 0.5 1000 1100 [0, 5],
        t.expected_value ≤ s.expected_value) :=
  ⟨by decide, claim_C4 0.5 1000 1100 [0, 5] (by decide)⟩

/-! ## Claim C3 -/

/-- Claim C3 as stated is false: with base probability 0.75, current rent
1000 and market rent 1000 over the default grid, the expected value is
strictly decreasing in the increase percentage, so the scenario marked
`is_recommended` is the 0% one — its `increase_pct` is 0, not strictly
greater than 0 as the claim requires. -/
theorem claim_C3_counterexample :
    ((simulate_scenarios 0.75 1000 1000 defaultGrid).find?
        (·.is_recommended)).map (·.increase_pct) = some 0 := by
  with_unfolding_all decide

/-- Claim C3 (amended): in the 0.75/1000/1000 simulation over the default
0–15% grid, the first scenario is the 0% one and every increase in the
batch lies in [0, 15] (so 0% is the lowest); the churn term of the 0%
scenario's expected value is the nonzero 2125; and the recommended
scenario's `increase_pct` equals 0 (rather than lying in (0, 15]). -/
theorem claim_C3_amended :
    ((simulate_scenarios 0.75 1000 1000 defaultGrid).head?).map (·.increase_pct) = some 0 ∧
    ((simulate_scenarios 0.75 1000 1000 defaultGrid).all fun s =>
      decide (0 ≤ s.increase_pct) && decide (s.increase_pct ≤ 15)) = true ∧
    churn_revenue (_apply_elasticity 0.75 0 ((1000 - 1000 : ℚ) / max 1000 1)) 1000
      (_compute_turnover_cost 1000) = 2125 ∧
    ((simulate_scenarios 0.75 1000 1000 defaultGrid).find?
        (·.is_recommended)).map (·.increase_pct) = some 0 := by
  with_unfolding_all decide

/-! ## Claim C1 -/

/-- Claim C1 as stated is false: the safety check is
`if counter_rent and counter_rent < min_rent`, so a suggested counter of
exactly 0 — present and strictly below the 950 floor embedded in the
offer — is treated as absent by Python truthiness: escalation is not
forced and the negotiation log records the counter 0 instead of null. -/
theorem claim_C1_counterexample :
    (analyse_tenant_response ⟨"pending", 1000, 950, some ⟨some 950, none, none, none⟩⟩
        "I can only pay zero" true
        ⟨0, "neutral", "negotiating", 0.5, some 0, "original reply", false, false, false⟩).escalate
      = false ∧
    (analyse_tenant_response ⟨"pending", 1000, 950, some ⟨some 950, none, none, none⟩⟩
        "I can only pay zero" true
        ⟨0, "neutral", "negotiating", 0.5, some 0, "original reply", false, false, false⟩).log_row.ai_suggested_counter_rent
      = some 0 ∧
    ((0 : ℚ) < 950) := by
  with_unfolding_all decide

/-- Claim C1 (amended): if the analysis yields a suggested counter rent
that is present, nonzero, and strictly below the nonzero floor rent
embedded in the offer, the engine forces escalation, records a null
counter in the negotiation log, replaces the reply with the neutral
holding message, and leaves the offer's proposed rent unchanged (hence
never below the floor). -/
theorem claim_C1_amended (offer : NegOffer) (msg : String) (phone : Bool)
    (analysis : NegotiationAnalysis) (f c : ℚ)
    (hf : offer.landlord_terms.bind (·.min_acceptable_rent) = some f) (hf0 : f ≠ 0)
    (hc : analysis.suggested_counter_rent = some c) (hc0 : c ≠ 0) (hlt : c < f) :
    (analyse_tenant_response offer msg phone analysis).escalate = true ∧
    (analyse_tenant_response offer msg phone analysis).suggested_counter_rent = none ∧
    (analyse_tenant_response offer msg phone analysis).log_row.ai_suggested_counter_rent = none ∧
    (analyse_tenant_response offer msg phone analysis).response_text = holding_response ∧
    (analyse_tenant_response offer msg phone analysis).offer_after.proposed_rent =
      offer.proposed_rent := by
  cases hterm : offer.landlord_terms with
  | none => rw [hterm] at hf; simp at hf
  | some t =>
    rw [hterm] at hf
    simp only [Option.bind] at hf
    have hbreach : (c != 0 && decide (c < f)) = true := by
      simp [hc0, hlt]
    simp [analyse_tenant_response, hterm, hf, orFloat, hf0, hc, hbreach, truthyCounter]

/-- Witness for claim C1: floor 950 embedded, counter 900. -/
theorem claim_C1_witness :
    (analyse_tenant_response ⟨"pending", 1000, 1000, some ⟨some 950, none, none, none⟩⟩ "m" true
        ⟨0, "neutral", "negotiating", 0.5, some 900, "r", false, false, false⟩).escalate = true ∧
    (analyse_tenant_response ⟨"pending", 1000, 1000, some ⟨some 950, none, none, none⟩⟩ "m" true
        ⟨0, "neutral", "negotiating", 0.5, some 900, "r", false, false, false⟩).suggested_counter_rent = none ∧
    (analyse_tenant_response ⟨"pending", 1000, 1000, some ⟨some 950, none, none, none⟩⟩ "m" true
        ⟨0, "neutral", "negotiating", 0.5, some 900, "r", false, false, false⟩).log_row.ai_suggested_counter_rent = none ∧
    (analyse_tenant_response ⟨"pending", 1000, 1000, some ⟨some 950, none, none, none⟩⟩ "m" true
        ⟨0, "neutral", "negotiating", 0.5, some 900, "r", false, false, false⟩).response_text = holding_response ∧
    (analyse_tenant_response ⟨"pending", 1000, 1000, some ⟨some 950, none, none, none⟩⟩ "m" true
        ⟨0, "neutral", "negotiating", 0.5, some 900, "r", false, false, false⟩).offer_after.proposed_rent =
      (⟨"pending", 1000, 1000, some ⟨some 950, none, none, none⟩⟩ : NegOffer).proposed_rent :=
  claim_C1_amended _ "m" true _ 950 900 rfl (by norm_num) rfl (by norm_num) (by norm_num)

/-! ## Claim C2 -/

/-- Claim C2 as stated is false: on a countered reply the offer's
proposed rent becomes `round(counter, 2)`, not the suggested counter
itself — a counter of 1000.005 (above the 950 floor) yields a stored
proposed rent of 1000. -/
theorem claim_C2_counterexample :
    (analyse_tenant_response ⟨"pending", 1000, 1000, some ⟨some 950, none, none, none⟩⟩ "m" true
        ⟨0, "neutral", "negotiating", 0.5, some 1000.005, "r", false, false, false⟩).new_status
      = "countered" ∧
    (analyse_tenant_response ⟨"pending", 1000, 1000, some ⟨some 950, none, none, none⟩⟩ "m" true
        ⟨0, "neutral", "negotiating", 0.5, some 1000.005, "r", false, false, false⟩).offer_after.proposed_rent
      = 1000 ∧
    ((1000 : ℚ) ≠ 1000.005) := by
  with_unfolding_all decide

/-- Claim C2 (amended): the new status is exactly `conclude_deal →
accepted`, else `trigger_relisting → rejected`, else `negotiating`
without (post-safety-check) escalation `→ countered`, else `pending`;
the offer row takes that status, and its proposed rent becomes the
suggested counter rounded to two decimals when the status is countered
and the counter is non-null and nonzero, and is unchanged otherwise. -/
theorem claim_C2_amended (offer : NegOffer) (msg : String) (phone : Bool)
    (analysis : NegotiationAnalysis) :
    (analyse_tenant_response offer msg phone analysis).new_status =
      (if analysis.conclude_deal then "accepted"
       else if analysis.trigger_relisting then "rejected"
       else if analysis.classification == "negotiating" &&
          !(analyse_tenant_response offer msg phone analysis).escalate then "countered"
       else "pending") ∧
    (analyse_tenant_response offer msg phone analysis).offer_after.status =
      (analyse_tenant_response offer msg phone analysis).new_status ∧
    (analyse_tenant_response offer msg phone analysis).offer_after.proposed_rent =
      (if (analyse_tenant_response offer msg phone analysis).new_status == "countered" &&
          truthyCounter (analyse_tenant_response offer msg phone analysis).suggested_counter_rent then
        roundTo 2 ((analyse_tenant_response offer msg phone analysis).suggested_counter_rent.getD 0)
       else offer.proposed_rent) :=
  ⟨rfl, rfl, rfl⟩

/-! ## Claim C9 -/

/-- Claim C9 as stated is false: the engine never reads the offer's
current status, so a message classified as a firm refusal moves an
already accepted offer to rejected — accepted is not terminal. -/
theorem claim_C9_counterexample :
    (analyse_tenant_response ⟨"accepted", 1000, 950, none⟩ "no" true
        ⟨-0.6, "negative", "resistant", 0.1, none, "bye", false, true, false⟩).offer_after.status
      = "rejected" ∧
    ("rejected" : String) ≠ "accepted" := by
  with_unfolding_all decide

/-- Claim C9 (amended): the negotiation engine ignores the offer's
current status entirely — the new status is a function of the analysis
alone, and it overwrites the stored status — so accepted and rejected
are not enforced as terminal states. -/
theorem claim_C9_amended (offer : NegOffer) (msg : String) (phone : Bool)
    (analysis : NegotiationAnalysis) (s1 s2 : String) :
    (analyse_tenant_response { offer with status := s1 } msg phone analysis).new_status =
      (analyse_tenant_response { offer with status := s2 } msg phone analysis).new_status ∧
    (analyse_tenant_response offer msg phone analysis).offer_after.status =
      (analyse_tenant_response offer msg phone analysis).new_status :=
  ⟨rfl, rfl⟩

/-! ## Claim C10 -/

/-- Claim C10: when the stored offer content lacks landlord terms (or the
individual fields are absent), the engine substitutes defaults — floor
95% of the current proposed rent, 12-month preferred duration, and
autonomy on — so with a known tenant phone and a nonempty reply the
response is auto-sent without any landlord-granted autonomy. -/
theorem claim_C10 (offer : NegOffer) (msg : String) (phone : Bool)
    (analysis : NegotiationAnalysis)
    (hterms : offer.landlord_terms = none ∨
      offer.landlord_terms = some ⟨none, none, none, none⟩) :
    (analyse_tenant_response offer msg phone analysis).min_rent = offer.proposed_rent * 0.95 ∧
    (analyse_tenant_response offer msg phone analysis).preferred_duration = 12 ∧
    (analyse_tenant_response offer msg phone analysis).auto_negotiate = true ∧
    (phone = true → (analyse_tenant_response offer msg phone analysis).response_text ≠ "" →
      (analyse_tenant_response offer msg phone analysis).response_sent = true) := by
  rcases hterms with h | h
  · refine ⟨?_, ?_, ?_, ?_⟩ <;>
      simp [analyse_tenant_response, h, orFloat, orInt]
    exact fun hp hr => ⟨hp, hr⟩
  · refine ⟨?_, ?_, ?_, ?_⟩ <;>
      simp [analyse_tenant_response, h, orFloat, orInt]
    exact fun hp hr => ⟨hp, hr⟩

/-- Witness for claim C10: no landlord terms stored, phone known,
nonempty reply. -/
theorem claim_C10_witness :
    (analyse_tenant_response ⟨"pending", 1000, 950, none⟩ "m" true
        ⟨0, "neutral", "accepting", 0.9, none, "hello", true, false, false⟩).min_rent =
      (⟨"pending", 1000, 950, none⟩ : NegOffer).proposed_rent * 0.95 ∧
    (analyse_tenant_response ⟨"pending", 1000, 950, none⟩ "m" true
        ⟨0, "neutral", "accepting", 0.9, none, "hello", true, false, false⟩).preferred_duration = 12 ∧
    (analyse_tenant_response ⟨"pending", 1000, 950, none⟩ "m" true
        ⟨0, "neutral", "accepting", 0.9, none, "hello", true, false, false⟩).auto_negotiate = true ∧
    (true = true →
      (analyse_tenant_response ⟨"pending", 1000, 950, none⟩ "m" true
        ⟨0, "neutral", "accepting", 0.9, none, "hello", true, false, false⟩).response_text ≠ "" →
      (analyse_tenant_response ⟨"pending", 1000, 950, none⟩ "m" true
        ⟨0, "neutral", "accepting", 0.9, none, "hello", true, false, false⟩).response_sent = true) :=
  claim_C10 ⟨"pending", 1000, 950, none⟩ "m" true
    ⟨0, "neutral", "accepting", 0.9, none, "hello", true, false, false⟩ (Or.inl rfl)

/-! ## Claim C6 -/

/-- The floor fix-up never touches `sent_at`: the final stored row keeps
the delivery stamp of the inserted row. -/
theorem initiate_final_sent_at (current_rent pct confidence : ℚ)
    (terms : Option InitLandlordTerms) (hw he ok : Bool) (now : ℤ) :
    (initiate_renewal current_rent pct confidence terms hw he ok now).offer_final.sent_at =
      (initiate_renewal current_rent pct confidence terms hw he ok now).offer_inserted.sent_at := by
  simp only [initiate_renewal]
  repeat' split
  all_goals rfl

/-- Claim C6: below the auto-send confidence threshold, initiation still
persists the offer row but attempts no delivery — the stored `sent_at`
is null in the inserted row and stays null — and the outcome is flagged
as requiring manual approval (the flag also drives the low-confidence
warning in the landlord notification). -/
theorem claim_C6 (current_rent pct confidence : ℚ) (terms : Option InitLandlordTerms)
    (hw he ok : Bool) (now : ℤ) (h : confidence < min_confidence_to_auto_send) :
    (initiate_renewal current_rent pct confidence terms hw he ok now).requires_approval = true ∧
    (initiate_renewal current_rent pct confidence terms hw he ok now).send_attempted = false ∧
    (initiate_renewal current_rent pct confidence terms hw he ok now).sent = false ∧
    (initiate_renewal current_rent pct confidence terms hw he ok now).offer_inserted.sent_at = none ∧
    (initiate_renewal current_rent pct confidence terms hw he ok now).offer_final.sent_at = none ∧
    (initiate_renewal current_rent pct confidence terms hw he ok now).notified_low_confidence = true := by
  refine ⟨?_, ?_, ?_, ?_, ?_, ?_⟩
  · simp [initiate_renewal, h]
  · simp [initiate_renewal, h]
  · simp [initiate_renewal, h]
  · simp [initiate_renewal, h]
  · rw [initiate_final_sent_at]
    simp [initiate_renewal, h]
  · simp [initiate_renewal, h]

/-- Witness for claim C6 at confidence 0.5, below the 0.65 threshold. -/
theorem claim_C6_witness :
    (0.5 : ℚ) < min_confidence_to_auto_send ∧
    ((initiate_renewal 1000 5 0.5 none true true true 0).requires_approval = true ∧
    (initiate_renewal 1000 5 0.5 none true true true 0).send_attempted = false ∧
    (initiate_renewal 1000 5 0.5 none true true true 0).sent = false ∧
    (initiate_renewal 1000 5 0.5 none true true true 0).offer_inserted.sent_at = none ∧
    (initiate_renewal 1000 5 0.5 none true true true 0).offer_final.sent_at = none ∧
    (initiate_renewal 1000 5 0.5 none true true true 0).notified_low_confidence = true) :=
  ⟨by norm_num [min_confidence_to_auto_send],
    claim_C6 1000 5 0.5 none true true true 0 (by norm_num [min_confidence_to_auto_send])⟩

/-! ## Claim C7 -/

/-- Claim C7 as stated is false: the offer row is inserted first — with
proposed rent 1000, strictly below the 1100 floor — and only afterwards
updated to the floor, so the stored offer does transiently hold a
below-floor proposed rent. -/
theorem claim_C7_counterexample :
    (initiate_renewal 1000 0 1 (some ⟨some 1100, none⟩) true true true 0).offer_inserted.proposed_rent = 1000 ∧
    ((1000 : ℚ) < 1100) ∧
    (initiate_renewal 1000 0 1 (some ⟨some 1100, none⟩) true true true 0).offer_final.proposed_rent = 1100 := by
  with_unfolding_all decide

/-- Claim C7 (amended): with a nonzero floor in the landlord terms and a
computed proposed rent below it, the row is first inserted with the
(rounded) unraised rent and then updated so that the final stored
proposed rent is the floor rounded to two decimals; the raise happens
after the insert, not before. -/
theorem claim_C7_amended (current_rent pct confidence : ℚ)
    (terms : InitLandlordTerms) (f : ℚ) (hw he ok : Bool) (now : ℤ)
    (hf : terms.min_acceptable_rent = some f) (hf0 : f ≠ 0)
    (hlt : current_rent * (1 + pct / 100) < f) :
    (initiate_renewal current_rent pct confidence (some terms) hw he ok now).offer_inserted.proposed_rent
      = roundTo 2 (current_rent * (1 + pct / 100)) ∧
    (initiate_renewal current_rent pct confidence (some terms) hw he ok now).offer_final.proposed_rent
      = roundTo 2 f ∧
    (initiate_renewal current_rent pct confidence (some terms) hw he ok now).returned_proposed_rent
      = roundTo 2 f := by
  refine ⟨?_, ?_, ?_⟩ <;> simp [initiate_renewal, hf, hf0, hlt]

/-- Witness for claim C7: floor 1100, computed proposed rent 1000. -/
theorem claim_C7_witness :
    (⟨some 1100, none⟩ : InitLandlordTerms).min_acceptable_rent = some 1100 ∧
    ((1100 : ℚ) ≠ 0) ∧
    ((1000 : ℚ) * (1 + 0 / 100) < 1100) ∧
    ((initiate_renewal 1000 0 1 (some ⟨some 1100, none⟩) true true true 0).offer_inserted.proposed_rent
      = roundTo 2 (1000 * (1 + 0 / 100)) ∧
    (initiate_renewal 1000 0 1 (some ⟨some 1100, none⟩) true true true 0).offer_final.proposed_rent
      = roundTo 2 1100 ∧
    (initiate_renewal 1000 0 1 (some ⟨some 1100, none⟩) true true true 0).returned_proposed_rent
      = roundTo 2 1100) :=
  ⟨rfl, by norm_num, by norm_num,
    claim_C7_amended 1000 0 1 ⟨some 1100, none⟩ 1100 true true true 0 rfl (by norm_num) (by norm_num)⟩

/-! ## Scheduled sweep: the initiate loop -/

theorem initiate_step_skip (f : ℕ → Bool) (now : ℤ) (st : WfState) (acc : List ℕ)
    (c : WfLease) (h : st.offers.any (fun o => o.lease_id == c.lid) = true) :
    initiate_step f now (st, acc) c = (st, acc) := by
  simp [initiate_step, h]

theorem initiate_step_insert (f : ℕ → Bool) (now : ℤ) (st : WfState) (acc : List ℕ)
    (c : WfLease) (h : st.offers.any (fun o => o.lease_id == c.lid) = false) :
    initiate_step f now (st, acc) c =
      ({ st with offers := st.offers ++ [new_offer f now st.next_oid c.lid]
                 next_oid := st.next_oid + 1 }, acc ++ [c.lid]) := by
  simp [initiate_step, h]

theorem initiate_fold_leases (f : ℕ → Bool) (now : ℤ) :
    ∀ (cs : List WfLease) (st : WfState) (acc : List ℕ),
    (cs.foldl (initiate_step f now) (st, acc)).1.leases = st.leases := by
  intro cs
  induction cs with
  | nil => intro st acc; rfl
  | cons c cs ih =>
    intro st acc
    rw [List.foldl_cons]
    cases h : st.offers.any (fun o => o.lease_id == c.lid) with
    | true => rw [initiate_step_skip f now st acc c h]; exact ih st acc
    | false => rw [initiate_step_insert f now st acc c h]; exact ih _ _

theorem initiate_fold_offers (f : ℕ → Bool) (now : ℤ) :
    ∀ (cs : List WfLease) (st : WfState) (acc : List ℕ),
    ∃ freshly : List WfOffer,
      (cs.foldl (initiate_step f now) (st, acc)).1.offers = st.offers ++ freshly ∧
      ∀ o ∈ freshly, o.status = "pending" ∧ o.follow_up_count = 0 ∧
        (o.sent_at = none ∨ o.sent_at = some now) := by
  intro cs
  induction cs with
  | nil =>
    intro st acc
    exact ⟨[], by simp, by simp⟩
  | cons c cs ih =>
    intro st acc
    rw [List.foldl_cons]
    cases h : st.offers.any (fun o => o.lease_id == c.lid) with
    | true =>
      rw [initiate_step_skip f now st acc c h]
      exact ih st acc
    | false =>
      rw [initiate_step_insert f now st acc c h]
      obtain ⟨fr, heq, hprops⟩ := ih
        { st with offers := st.offers ++ [new_offer f now st.next_oid c.lid]
                  next_oid := st.next_oid + 1 } (acc ++ [c.lid])
      refine ⟨new_offer f now st.next_oid c.lid :: fr, ?_, ?_⟩
      · rw [heq]
        simp
      · intro o ho
        rcases List.mem_cons.mp ho with rfl | ho
        · refine ⟨rfl, rfl, ?_⟩
          by_cases hfc : f c.lid = true
          · right; simp [new_offer, hfc]
          · left; simp [new_offer, hfc]
        · exact hprops o ho

theorem initiate_fold_covers (f : ℕ → Bool) (now : ℤ) :
    ∀ (cs : List WfLease) (st : WfState) (acc : List ℕ),
    ∀ l ∈ cs, ∃ o ∈ (cs.foldl (initiate_step f now) (st, acc)).1.offers,
      o.lease_id = l.lid := by
  intro cs
  induction cs with
  | nil => intro st acc l hl; simp at hl
  | cons c cs ih =>
    intro st acc l hl
    rw [List.foldl_cons]
    rcases List.mem_cons.mp hl with rfl | hl
    · cases h : st.offers.any (fun o => o.lease_id == l.lid) with
      | true =>
        rw [initiate_step_skip f now st acc l h]
        obtain ⟨o, ho, hoid⟩ := List.any_eq_true.mp h
        obtain ⟨fr, heq, -⟩ := initiate_fold_offers f now cs st acc
        refine ⟨o, ?_, by simpa using hoid⟩
        rw [heq]
        exact List.mem_append_left _ ho
      | false =>
        rw [initiate_step_insert f now st acc l h]
        obtain ⟨fr, heq, -⟩ := initiate_fold_offers f now cs
          { st with offers := st.offers ++ [new_offer f now st.next_oid l.lid]
                    next_oid := st.next_oid + 1 } (acc ++ [l.lid])
        refine ⟨new_offer f now st.next_oid l.lid, ?_, rfl⟩
        rw [heq]
        exact List.mem_append_left _ (by simp)
    · cases h : st.offers.any (fun o => o.lease_id == c.lid) with
      | true =>
        rw [initiate_step_skip f now st acc c h]
        exact ih st acc l hl
      | false =>
        rw [initiate_step_insert f now st acc c h]
        exact ih _ _ l hl

theorem initiate_fold_id (f : ℕ → Bool) (now : ℤ) :
    ∀ (cs : List WfLease) (st : WfState) (acc : List ℕ),
    (∀ l ∈ cs, ∃ o ∈ st.offers, o.lease_id = l.lid) →
    cs.foldl (initiate_step f now) (st, acc) = (st, acc) := by
  intro cs
  induction cs with
  | nil => intro st acc _; rfl
  | cons c cs ih =>
    intro st acc hcov
    rw [List.foldl_cons]
    have h : st.offers.any (fun o => o.lease_id == c.lid) = true := by
      obtain ⟨o, ho, hoid⟩ := hcov c (List.mem_cons_self c cs)
      exact List.any_eq_true.mpr ⟨o, ho, by simpa using hoid⟩
    rw [initiate_step_skip f now st acc c h]
    exact ih st acc (fun l hl => hcov l (List.mem_cons_of_mem c hl))

theorem initiate_fold_wf (f : ℕ → Bool) (now : ℤ) :
    ∀ (cs : List WfLease) (st : WfState) (acc : List ℕ),
    WfStateOk st → WfStateOk (cs.foldl (initiate_step f now) (st, acc)).1 := by
  intro cs
  induction cs with
  | nil => intro st acc h; exact h
  | cons c cs ih =>
    intro st acc hwf
    rw [List.foldl_cons]
    cases h : st.offers.any (fun o => o.lease_id == c.lid) with
    | true =>
      rw [initiate_step_skip f now st acc c h]
      exact ih st acc hwf
    | false =>
      rw [initiate_step_insert f now st acc c h]
      apply ih
      obtain ⟨hnodup, hbound⟩ := hwf
      constructor
      · simp only [List.map_append]
        rw [List.nodup_append]
        refine ⟨hnodup, by simp [new_offer], ?_⟩
        intro a ha
        obtain ⟨o, ho, rfl⟩ := List.mem_map.mp ha
        simp only [List.map_cons, List.map_nil, List.mem_singleton, new_offer]
        exact Nat.ne_of_lt (hbound o ho)
      · intro o ho
        rcases List.mem_append.mp ho with ho | ho
        · exact Nat.lt_succ_of_lt (hbound o ho)
        · rcases List.mem_singleton.mp ho with rfl
          exact Nat.lt_succ_self _

/-! ## Scheduled sweep: the follow-up loop -/

theorem map_congr_mem {α β : Type} :
    ∀ (l : List α) (g h : α → β), (∀ o ∈ l, g o = h o) → l.map g = l.map h := by
  intro l g h hgh
  induction l with
  | nil => rfl
  | cons a t ih =>
    simp only [List.map_cons]
    rw [hgh a (List.mem_cons_self a t), ih (fun o ho => hgh o (List.mem_cons_of_mem a ho))]

theorem map_invariant {α : Type} :
    ∀ (l : List α) (g : α → α), (∀ o ∈ l, g o = o) → l.map g = l := by
  intro l g h
  rw [map_congr_mem l g id h]
  exact List.map_id l

theorem sweep_step_oid (now : ℤ) (o : WfOffer) :
    (sweep_offer_step now o).oid = o.oid := by
  unfold sweep_offer_step
  split
  · rfl
  · split <;> rfl

theorem sweep_step_lease_id (now : ℤ) (o : WfOffer) :
    (sweep_offer_step now o).lease_id = o.lease_id := by
  unfold sweep_offer_step
  split
  · rfl
  · split <;> rfl

theorem followup_step_eq (now : ℤ) (st : WfState) (fu al : List ℕ) (s : WfOffer)
    (hmatch : ∀ o ∈ st.offers, o.oid = s.oid → o = s) :
    followup_step now (st, fu, al) s =
      ({ st with offers := st.offers.map fun o =>
          if o.oid == s.oid then sweep_offer_step now o else o },
        fu ++ (if follow_cond now s then [s.oid] else []),
        al ++ (if auto_list_cond now s then [s.lease_id] else [])) := by
  cases hs : s.sent_at with
  | none =>
    have hac : auto_list_cond now s = false := by simp [auto_list_cond, hs]
    have hfc : follow_cond now s = false := by simp [follow_cond, hs]
    have hmap : (st.offers.map fun o =>
        if o.oid == s.oid then sweep_offer_step now o else o) = st.offers := by
      apply map_invariant
      intro o ho
      by_cases heq : o.oid = s.oid
      · rw [hmatch o ho heq]
        simp [sweep_offer_step, hac, hfc]
      · simp [heq]
    simp only [followup_step, hs, hac, hfc, hmap]
    simp
  | some t =>
    by_cases h1 : t ≤ now - auto_list_days_no_response ∧ 1 ≤ s.follow_up_count
    · have hac : auto_list_cond now s = true := by
        simp [auto_list_cond, hs, h1.1, h1.2]
      have hfc : follow_cond now s = false := by
        simp [follow_cond, hs, hac]
      have hmap : update_by_id expire_offer s.oid st.offers =
          st.offers.map fun o =>
            if o.oid == s.oid then sweep_offer_step now o else o := by
        unfold update_by_id
        apply map_congr_mem
        intro o ho
        by_cases heq : o.oid = s.oid
        · have ho' := hmatch o ho heq
          subst ho'
          simp [sweep_offer_step, hac]
        · simp [heq]
      simp only [followup_step, hs, if_pos h1, hac, hfc, hmap]
      simp
    · by_cases h2 : t ≤ now - followup_days_no_response ∧ s.follow_up_count = 0
      · have hac : auto_list_cond now s = false := by
          simp only [auto_list_cond, hs, Bool.and_eq_false_iff]
          rcases Decidable.not_and_iff_or_not.mp h1 with h | h
          · left; simpa using h
          · right; simpa using h
        have hfc : follow_cond now s = true := by
          simp [follow_cond, hs, hac, h2.1, h2.2]
        have hmap : update_by_id (follow_offer now) s.oid st.offers =
            st.offers.map fun o =>
              if o.oid == s.oid then sweep_offer_step now o else o := by
          unfold update_by_id
          apply map_congr_mem
          intro o ho
          by_cases heq : o.oid = s.oid
          · have ho' := hmatch o ho heq
            subst ho'
            simp [sweep_offer_step, hac, hfc]
          · simp [heq]
        simp only [followup_step, hs, if_neg h1, if_pos h2, hac, hfc, hmap]
        simp
      · have hac : auto_list_cond now s = false := by
          simp only [auto_list_cond, hs, Bool.and_eq_false_iff]
          rcases Decidable.not_and_iff_or_not.mp h1 with h | h
          · left; simpa using h
          · right; simpa using h
        have hfc : follow_cond now s = false := by
          simp only [follow_cond, hs, hac, Bool.not_false, Bool.true_and,
            Bool.and_eq_false_iff]
          rcases Decidable.not_and_iff_or_not.mp h2 with h | h
          · left; simpa using h
          · right; simpa using h
        have hmap : (st.offers.map fun o =>
            if o.oid == s.oid then sweep_offer_step now o else o) = st.offers := by
          apply map_invariant
          intro o ho
          by_cases heq : o.oid = s.oid
          · rw [hmatch o ho heq]
            simp [sweep_offer_step, hac, hfc]
          · simp [heq]
        simp only [followup_step, hs, if_neg h1, if_neg h2, hac, hfc, hmap]
        simp

/-- The whole follow-up loop equals a pointwise update of the offers
table, with the two summary lists given by filtering the snapshot on the
two guards — provided the snapshot rows agree with the live rows and
row ids are unique. -/
theorem followup_fold_spec (now : ℤ) :
    ∀ (snap : List WfOffer) (st : WfState) (fu al : List ℕ),
    (∀ s ∈ snap, ∀ o ∈ st.offers, o.oid = s.oid → o = s) →
    (snap.map (·.oid)).Nodup →
    snap.foldl (followup_step now) (st, fu, al) =
      ({ st with offers := st.offers.map fun o =>
          if snap.any (fun s => s.oid == o.oid) then sweep_offer_step now o else o },
        fu ++ (snap.filter (follow_cond now)).map (·.oid),
        al ++ (snap.filter (auto_list_cond now)).map (·.lease_id)) := by
  intro snap
  induction snap with
  | nil =>
    intro st fu al _ _
    simp
  | cons s rest ih =>
    intro st fu al hmatch hnodup
    have hnd : s.oid ∉ rest.map (·.oid) := by
      simpa using (List.nodup_cons.mp hnodup).1
    have hnodup' : (rest.map (·.oid)).Nodup := (List.nodup_cons.mp hnodup).2
    rw [List.foldl_cons,
      followup_step_eq now st fu al s (fun o ho => hmatch s (List.mem_cons_self s rest) o ho)]
    have hmatch' : ∀ s' ∈ rest,
        ∀ o ∈ (st.offers.map fun o =>
          if o.oid == s.oid then sweep_offer_step now o else o),
        o.oid = s'.oid → o = s' := by
      intro s' hs' o' ho' hoid
      obtain ⟨o, ho, rfl⟩ := List.mem_map.mp ho'
      by_cases heq : o.oid = s.oid
      · exfalso
        have h1 : (if o.oid == s.oid then sweep_offer_step now o else o).oid = o.oid := by
          simp [heq, sweep_step_oid]
        apply hnd
        rw [List.mem_map]
        exact ⟨s', hs', by rw [← hoid, h1, heq]⟩
      · have h1 : (if o.oid == s.oid then sweep_offer_step now o else o) = o := by
          simp [heq]
        rw [h1] at hoid ⊢
        exact hmatch s' (List.mem_cons_of_mem s hs') o ho hoid
    rw [ih _ _ _ hmatch' hnodup']
    have hoff : ((st.offers.map fun o =>
          if o.oid == s.oid then sweep_offer_step now o else o).map fun o =>
            if rest.any (fun s' => s'.oid == o.oid) then sweep_offer_step now o else o) =
        st.offers.map fun o =>
          if (s :: rest).any (fun s' => s'.oid == o.oid) then sweep_offer_step now o else o := by
      rw [List.map_map]
      apply map_congr_mem
      intro o ho
      simp only [Function.comp]
      by_cases heq : o.oid = s.oid
      · have hrest : rest.any (fun s' => s'.oid == (sweep_offer_step now o).oid) = false := by
          rw [List.any_eq_false]
          intro s' hs'
          simp only [sweep_step_oid, heq, beq_iff_eq]
          intro h'
          exact hnd (List.mem_map.mpr ⟨s', hs', h'⟩)
        simp only [heq, beq_self_eq_true, if_true, hrest, Bool.false_eq_true, if_false,
          List.any_cons]
        have hhead : (s.oid == o.oid) = true := by simp [heq]
        simp [hhead]
      · have hne : (o.oid == s.oid) = false := by simp [heq]
        have hne' : (s.oid == o.oid) = false := by simp; omega
        simp [hne, hne', List.any_cons]
    have hfu : ∀ X : List ℕ, (X ++ (if follow_cond now s then [s.oid] else [])) ++
          (rest.filter (follow_cond now)).map (·.oid) =
        X ++ ((s :: rest).filter (follow_cond now)).map (·.oid) := by
      intro X
      cases hfc : follow_cond now s <;> simp [List.filter_cons, hfc]
    have hal : ∀ X : List ℕ, (X ++ (if auto_list_cond now s then [s.lease_id] else [])) ++
          (rest.filter (auto_list_cond now)).map (·.lease_id) =
        X ++ ((s :: rest).filter (auto_list_cond now)).map (·.lease_id) := by
      intro X
      cases hac : auto_list_cond now s <;> simp [List.filter_cons, hac]
    rw [hoff, hfu fu, hal al]

/-- With unique row ids, membership of a row in the pending-sent snapshot
of its own table is decided by the `pending_sent` guard itself. -/
theorem snap_any_eq (l : List WfOffer) (hnodup : (l.map (·.oid)).Nodup)
    (o : WfOffer) (ho : o ∈ l) :
    (l.filter pending_sent).any (fun s => s.oid == o.oid) = pending_sent o := by
  cases hps : pending_sent o
  · rw [List.any_eq_false]
    intro s hs
    obtain ⟨hsl, hsps⟩ := List.mem_filter.mp hs
    simp only [beq_iff_eq]
    intro hb
    have : s = o := List.inj_on_of_nodup_map hnodup hsl ho hb
    rw [this] at hsps
    rw [hsps] at hps
    cases hps
  · rw [List.any_eq_true]
    exact ⟨o, List.mem_filter.mpr ⟨ho, hps⟩, by simp⟩

/-- One full sweep, described state-by-state: the initiate pass runs
first, then every offer that was pending and sent at snapshot time is
rewritten by `sweep_offer_step`, and the summary lists are the filtered
snapshot projections. -/
theorem run_state_eq (f : ℕ → Bool) (now : ℤ) (st : WfState) (hwf : WfStateOk st) :
    run_scheduled_workflow f now st =
      ({ (phase1 f now st).1 with offers := (phase1 f now st).1.offers.map (fun o =>
          if pending_sent o then sweep_offer_step now o else o) },
        ⟨(phase1 f now st).2,
         (((phase1 f now st).1.offers.filter pending_sent).filter (follow_cond now)).map (·.oid),
         (((phase1 f now st).1.offers.filter pending_sent).filter (auto_list_cond now)).map (·.lease_id)⟩) := by
  have hwf1 : WfStateOk (phase1 f now st).1 := initiate_fold_wf f now _ st [] hwf
  have hnodup1 : ((phase1 f now st).1.offers.map (·.oid)).Nodup := hwf1.1
  have hsnapnodup :
      (((phase1 f now st).1.offers.filter pending_sent).map (·.oid)).Nodup :=
    ((List.filter_sublist _).map _).nodup hnodup1
  have hmatch : ∀ s ∈ (phase1 f now st).1.offers.filter pending_sent,
      ∀ o ∈ (phase1 f now st).1.offers, o.oid = s.oid → o = s := by
    intro s hs o ho hoid
    exact List.inj_on_of_nodup_map hnodup1 ho (List.mem_of_mem_filter hs) hoid
  have hform : ((phase1 f now st).1.offers.map fun o =>
      if ((phase1 f now st).1.offers.filter pending_sent).any (fun s => s.oid == o.oid)
        then sweep_offer_step now o else o) =
      (phase1 f now st).1.offers.map fun o =>
        if pending_sent o then sweep_offer_step now o else o := by
    apply map_congr_mem
    intro o ho
    rw [snap_any_eq _ hnodup1 o ho]
  show ((((phase1 f now st).1.offers.filter pending_sent).foldl (followup_step now)
      ((phase1 f now st).1, [], [])).1, _) = _
  rw [followup_fold_spec now _ _ [] [] hmatch hsnapnodup]
  rw [hform]
  simp

/-- A freshly initiated offer (no follow-ups, sent now or unsent) fires
neither sweep guard and is untouched by the sweep step. -/
theorem fresh_offer_quiet (now : ℤ) (o : WfOffer) (hc : o.follow_up_count = 0)
    (hs : o.sent_at = none ∨ o.sent_at = some now) :
    auto_list_cond now o = false ∧ follow_cond now o = false ∧
      sweep_offer_step now o = o := by
  rcases hs with hs | hs
  · have h1 : auto_list_cond now o = false := by simp [auto_list_cond, hs]
    have h2 : follow_cond now o = false := by simp [follow_cond, hs]
    exact ⟨h1, h2, by simp [sweep_offer_step, h1, h2]⟩
  · have h1 : auto_list_cond now o = false := by
      simp [auto_list_cond, hs, hc]
    have h2 : follow_cond now o = false := by
      simp only [follow_cond, hs, h1, Bool.not_false, Bool.true_and,
        Bool.and_eq_false_iff]
      left
      simp only [decide_eq_false_iff_not, followup_days_no_response]
      omega
    exact ⟨h1, h2, by simp [sweep_offer_step, h1, h2]⟩

/-- Case analysis for an offer that was pending and sent before the
sweep and is still pending and sent after it: the follow-up guard is
false on the swept row, and if the auto-list guard now fires, the
original row had no follow-ups and was already past the auto-list
cutoff. -/
theorem old_offer_cases (now : ℤ) (o : WfOffer)
    (hps : pending_sent (sweep_offer_step now o) = true) :
    follow_cond now (sweep_offer_step now o) = false ∧
    (auto_list_cond now (sweep_offer_step now o) = true →
      o.follow_up_count = 0 ∧
        ∃ t, o.sent_at = some t ∧ t ≤ now - auto_list_days_no_response) := by
  cases hauto : auto_list_cond now o
  · cases hfol : follow_cond now o
    · have hid : sweep_offer_step now o = o := by simp [sweep_offer_step, hauto, hfol]
      rw [hid]
      refine ⟨hfol, ?_⟩
      intro h
      rw [h] at hauto
      cases hauto
    · have hid : sweep_offer_step now o = follow_offer now o := by
        simp [sweep_offer_step, hauto, hfol]
      rw [hid]
      cases hso : o.sent_at with
      | none => simp [follow_cond, hso] at hfol
      | some t =>
        have hparts : auto_list_cond now o = false ∧
            (t ≤ now - followup_days_no_response ∧ o.follow_up_count = 0) := by
          simpa [follow_cond, hso] using hfol
        constructor
        · simp [follow_cond, follow_offer, hso, auto_list_cond]
        · intro hauto'
          have ht : t ≤ now - auto_list_days_no_response := by
            simpa [auto_list_cond, follow_offer, hso] using hauto'
          exact ⟨hparts.2.2, t, rfl, ht⟩
  · have hid : sweep_offer_step now o = expire_offer o := by
      simp [sweep_offer_step, hauto]
    rw [hid] at hps
    exfalso
    simp [pending_sent, expire_offer] at hps

/-! ## Claim C5 -/

/-- Claim C5 as stated is false: a pending offer 15 days old with no
follow-up yet receives its follow-up on the first sweep, and the second
sweep — run immediately, with no elapsed time and no other change —
then auto-lists it, triggering a re-listing.  In the model a sweep never
errors, so the first run completed without errors. -/
theorem claim_C5_counterexample :
    (run_scheduled_workflow (fun _ => false) 0
      (run_scheduled_workflow (fun _ => false) 0
        ⟨[], [⟨1, 7, "pending", some (-15), 0, none⟩], 2⟩).1).2.auto_listed = [7] ∧
    ([7] : List ℕ) ≠ [] ∧
    (run_scheduled_workflow (fun _ => false) 0
      ⟨[], [⟨1, 7, "pending", some (-15), 0, none⟩], 2⟩).2.followed_up = [1] := by
  with_unfolding_all decide

/-- Claim C5 (amended): re-running the sweep immediately creates zero new
offers and sends zero follow-up reminders, for every well-formed
starting state; re-listing triggers, however, can fire on the second
run — exactly for offers that were already past the auto-list cutoff
with no follow-up sent before the first run (the first run sends their
follow-up, the second expires and re-lists them). -/
theorem claim_C5_amended (f : ℕ → Bool) (now : ℤ) (st0 : WfState)
    (hwf : WfStateOk st0) :
    (run_scheduled_workflow f now (run_scheduled_workflow f now st0).1).2.initiated = [] ∧
    (run_scheduled_workflow f now (run_scheduled_workflow f now st0).1).2.followed_up = [] ∧
    ∀ lid ∈ (run_scheduled_workflow f now (run_scheduled_workflow f now st0).1).2.auto_listed,
      ∃ o ∈ st0.offers, o.lease_id = lid ∧ o.status = "pending" ∧
        o.follow_up_count = 0 ∧
        ∃ t, o.sent_at = some t ∧ t ≤ now - auto_list_days_no_response := by
  have hwf1 : WfStateOk (phase1 f now st0).1 := initiate_fold_wf f now _ st0 [] hwf
  obtain ⟨fresh, hoff1, hfresh⟩ :=
    initiate_fold_offers f now (st0.leases.filter (renewal_candidate now)) st0 []
  have hoff1' : (phase1 f now st0).1.offers = st0.offers ++ fresh := hoff1
  have hleases1 : (phase1 f now st0).1.leases = st0.leases :=
    initiate_fold_leases f now _ st0 []
  have hcov1 : ∀ l ∈ st0.leases.filter (renewal_candidate now),
      ∃ o ∈ (phase1 f now st0).1.offers, o.lease_id = l.lid :=
    initiate_fold_covers f now _ st0 []
  have hrun1 := run_state_eq f now st0 hwf
  set st1 := (phase1 f now st0).1 with hst1def
  set G : WfOffer → WfOffer :=
    fun o => if pending_sent o then sweep_offer_step now o else o with hGdef
  set st2 : WfState := { st1 with offers := st1.offers.map G } with hst2def
  have hGoid : ∀ o : WfOffer, (G o).oid = o.oid := by
    intro o
    by_cases hp : pending_sent o = true
    · simp [hGdef, hp, sweep_step_oid]
    · simp [hGdef, hp]
  have hGlid : ∀ o : WfOffer, (G o).lease_id = o.lease_id := by
    intro o
    by_cases hp : pending_sent o = true
    · simp [hGdef, hp, sweep_step_lease_id]
    · simp [hGdef, hp]
  have hrun1' : (run_scheduled_workflow f now st0).1 = st2 := by rw [hrun1]
  have hoid2 : st2.offers.map (·.oid) = st1.offers.map (·.oid) := by
    show (st1.offers.map G).map (·.oid) = _
    rw [List.map_map]
    apply map_congr_mem
    intro o _
    exact hGoid o
  have hwf2 : WfStateOk st2 := by
    constructor
    · rw [hoid2]
      exact hwf1.1
    · intro o ho
      obtain ⟨o1, ho1, rfl⟩ := List.mem_map.mp ho
      rw [hGoid o1]
      exact hwf1.2 o1 ho1
  have hrun2 := run_state_eq f now st2 hwf2
  have hleases2 : st2.leases = st0.leases := hleases1
  have hcov2 : ∀ l ∈ st2.leases.filter (renewal_candidate now),
      ∃ o ∈ st2.offers, o.lease_id = l.lid := by
    intro l hl
    rw [hleases2] at hl
    obtain ⟨o, ho, hol⟩ := hcov1 l hl
    refine ⟨G o, List.mem_map.mpr ⟨o, ho, rfl⟩, ?_⟩
    rw [hGlid o]
    exact hol
  have hph2 : phase1 f now st2 = (st2, []) :=
    initiate_fold_id f now _ st2 [] hcov2
  rw [hrun1', hrun2, hph2]
  refine ⟨rfl, ?_, ?_⟩
  · show ((st2.offers.filter pending_sent).filter (follow_cond now)).map (·.oid) = []
    have hnil : (st2.offers.filter pending_sent).filter (follow_cond now) = [] := by
      rw [List.filter_eq_nil_iff]
      intro o' ho'
      obtain ⟨ho'mem, hps'⟩ := List.mem_filter.mp ho'
      obtain ⟨o1, ho1, rfl⟩ := List.mem_map.mp ho'mem
      by_cases hp1 : pending_sent o1 = true
      · have hGo : G o1 = sweep_offer_step now o1 := by simp [hGdef, hp1]
        rw [hGo] at hps' ⊢
        rw [hoff1'] at ho1
        rcases List.mem_append.mp ho1 with hold | hnew
        · rw [(old_offer_cases now o1 hps').1]
          simp
        · obtain ⟨hpend, hcnt, hsent⟩ := hfresh o1 hnew
          obtain ⟨hA, hF, hId⟩ := fresh_offer_quiet now o1 hcnt hsent
          rw [hId, hF]
          simp
      · have hGo : G o1 = o1 := by simp [hGdef, hp1]
        rw [hGo] at hps'
        exact absurd hps' hp1
    rw [hnil]
    rfl
  · show ∀ lid ∈ ((st2.offers.filter pending_sent).filter (auto_list_cond now)).map (·.lease_id), _
    intro lid hlid
    obtain ⟨o', ho', rfl⟩ := List.mem_map.mp hlid
    obtain ⟨ho'1, hauto'⟩ := List.mem_filter.mp ho'
    obtain ⟨ho'2, hps'⟩ := List.mem_filter.mp ho'1
    obtain ⟨o1, ho1, rfl⟩ := List.mem_map.mp ho'2
    by_cases hp1 : pending_sent o1 = true
    · have hGo : G o1 = sweep_offer_step now o1 := by simp [hGdef, hp1]
      rw [hGo] at hps' hauto' ⊢
      rw [hoff1'] at ho1
      rcases List.mem_append.mp ho1 with hold | hnew
      · obtain ⟨hcnt, t, hsent, ht⟩ := (old_offer_cases now o1 hps').2 hauto'
        have hstat : o1.status = "pending" := by
          have hp1' := hp1
          simp [pending_sent] at hp1'
          exact hp1'.1
        exact ⟨o1, hold, (sweep_step_lease_id now o1).symm ▸ rfl, hstat, hcnt, t, hsent, ht⟩
      · obtain ⟨hpend, hcnt, hsent⟩ := hfresh o1 hnew
        obtain ⟨hA, hF, hId⟩ := fresh_offer_quiet now o1 hcnt hsent
        rw [hId, hA] at hauto'
        cases hauto'
    · have hGo : G o1 = o1 := by simp [hGdef, hp1]
      rw [hGo] at hps'
      exact absurd hps' hp1

/-- Witness for claim C5 on a concrete well-formed starting state. -/
theorem claim_C5_witness :
    WfStateOk ⟨[⟨3, "active", 90⟩], [⟨1, 7, "pending", some (-8), 0, none⟩], 2⟩ ∧
    ((run_scheduled_workflow (fun _ => true) 0
        (run_scheduled_workflow (fun _ => true) 0
          ⟨[⟨3, "active", 90⟩], [⟨1, 7, "pending", some (-8), 0, none⟩], 2⟩).1).2.initiated = [] ∧
    (run_scheduled_workflow (fun _ => true) 0
        (run_scheduled_workflow (fun _ => true) 0
          ⟨[⟨3, "active", 90⟩], [⟨1, 7, "pending", some (-8), 0, none⟩], 2⟩).1).2.followed_up = [] ∧
    ∀ lid ∈ (run_scheduled_workflow (fun _ => true) 0
        (run_scheduled_workflow (fun _ => true) 0
          ⟨[⟨3, "active", 90⟩], [⟨1, 7, "pending", some (-8), 0, none⟩], 2⟩).1).2.auto_listed,
      ∃ o ∈ (⟨[⟨3, "active", 90⟩], [⟨1, 7, "pending", some (-8), 0, none⟩], 2⟩ : WfState).offers,
        o.lease_id = lid ∧ o.status = "pending" ∧ o.follow_up_count = 0 ∧
        ∃ t, o.sent_at = some t ∧ t ≤ 0 - auto_list_days_no_response) :=
  ⟨by decide,
    claim_C5_amended (fun _ => true) 0
      ⟨[⟨3, "active", 90⟩], [⟨1, 7, "pending", some (-8), 0, none⟩], 2⟩ (by decide)⟩

end Renewal
